import Mathlib

/-!
Verification of the vendor-agnostic tool/function-call adapter
(`ToolCallAdapter`) specified for the langchainjs documentation repository.

The sampled repository contains only documentation pages and example
scripts (call sites of `.bind()`/`.invoke()`); the adapter itself is not
implemented under `src/`. Per the specification (§1, §4), the component is
therefore modelled here directly from the specification text, and the
claims are settled against that model.
-/

namespace ToolCallAdapter

mutual

/-- Modelled from the spec: the tagged structural-value type of §9 used for
all loose/dynamic JSON shapes (object/array/string/number/boolean/null
variants). The adapter is missing from `src/`; this models the internal
representation the spec prescribes. JSON numbers are modelled as integers,
which covers every numeric value appearing in the sampled material. -/
inductive StructValue : Type where
  | obj : ObjFields → StructValue
  | arr : ValueList → StructValue
  | str : String → StructValue
  | num : Int → StructValue
  | bool : Bool → StructValue
  | null : StructValue
deriving DecidableEq

/-- Modelled from the spec: the ordered field list of a structural JSON
object (mapping from string key to value, order-preserving). -/
inductive ObjFields : Type where
  | nil : ObjFields
  | cons : String → StructValue → ObjFields → ObjFields
deriving DecidableEq

/-- Modelled from the spec: the ordered element list of a structural JSON
array. -/
inductive ValueList : Type where
  | nil : ValueList
  | cons : StructValue → ValueList → ValueList
deriving DecidableEq

end


mutual

/-- Modelled from the spec: the JSON-Schema-like structural schema tree of
§3 — object/array/string/number/boolean/enum nodes, each optionally
carrying a description, object nodes carrying a required-field list. -/
inductive SchemaNode : Type where
  | objectNode : Option String → SchemaFields → List String → SchemaNode
  | arrayNode : Option String → SchemaNode → SchemaNode
  | stringNode : Option String → SchemaNode
  | numberNode : Option String → SchemaNode
  | booleanNode : Option String → SchemaNode
  | enumNode : Option String → List String → SchemaNode
deriving DecidableEq

/-- Modelled from the spec: the named property list of an object schema
node. -/
inductive SchemaFields : Type where
  | nil : SchemaFields
  | cons : String → SchemaNode → SchemaFields → SchemaFields
deriving DecidableEq

end

/-- Modelled from the spec (§3): a declared capability the caller offers to
a model: `name`, `description`, and a structural `parameterSchema`. -/
structure ToolSpec : Type where
  name : String
  description : String
  parameterSchema : SchemaNode
deriving DecidableEq

/-- Modelled from the spec (§3): the per-request tool-choice policy —
`Auto`, `None`, or `Forced(name)`. -/
inductive ToolChoicePolicy : Type where
  | auto : ToolChoicePolicy
  | none : ToolChoicePolicy
  | forced : String → ToolChoicePolicy
deriving DecidableEq

/-- Modelled from the spec (§2, §6): the supported vendors sampled in the
repository (OpenAI, Anthropic, Mistral, Google Vertex AI, TogetherAI). -/
inductive VendorId : Type where
  | openai : VendorId
  | anthropic : VendorId
  | mistral : VendorId
  | googleVertexAI : VendorId
  | togetherai : VendorId
deriving DecidableEq

/-- Modelled from the spec (§7): the error kinds of the adapter.
`unknownTool` carries the offending name and `malformedArguments` carries
the offending index and raw argument string, as §7 requires for
diagnostics. `emptyTools` models the §4.1 input-constraint violation
(`tools` empty while the choice is not `Auto`), for which §7 names no
dedicated kind. -/
inductive ErrorKind : Type where
  | unknownTool : String → ErrorKind
  | missingDescription : ErrorKind
  | malformedArguments : Nat → String → ErrorKind
  | unsupportedVendor : ErrorKind
  | emptyTools : ErrorKind
deriving DecidableEq

/-- Modelled from the spec (§3, §4.1): a single requested call extracted
from a model response, in canonical vendor-neutral form: correlation `id`,
`toolName`, and parsed structural `arguments`. -/
structure ToolInvocation : Type where
  id : String
  toolName : String
  arguments : StructValue
deriving DecidableEq

/-- Modelled from the spec (§4.1): one vendor call object of a raw
response fragment — an optional call id, a tool name, and a string-encoded
JSON arguments blob (the wire convention observed across vendors). -/
structure RawToolCall : Type where
  id : Option String
  name : String
  argumentsJson : String
deriving DecidableEq

/-- Modelled from the spec (§9): the per-vendor lookup-table entry —
wire name and strictness flags — consulted by the otherwise
vendor-agnostic encode/decode logic. -/
structure VendorProfile : Type where
  wireName : String
  requiresFieldDescriptions : Bool

/-- Modelled from the spec (§9, §4.1, and the Mistral integration note):
the vendor lookup table. Mistral is the sampled vendor whose API requires
descriptions on every tool field; every other sampled vendor is
description-optional. -/
def vendorProfile : VendorId → VendorProfile
  | .openai => { wireName := "openai", requiresFieldDescriptions := false }
  | .anthropic => { wireName := "anthropic", requiresFieldDescriptions := false }
  | .mistral => { wireName := "mistral", requiresFieldDescriptions := true }
  | .googleVertexAI => { wireName := "google-vertex-ai", requiresFieldDescriptions := false }
  | .togetherai => { wireName := "togetherai", requiresFieldDescriptions := false }


/-- Modelled from the spec: character from a code point, used to keep JSON
delimiter characters readable. -/
def chr (n : Nat) : Char := Char.ofNat n

/-- Modelled from the spec: the opening-brace character of JSON object
syntax. -/
def lbraceChar : Char := Char.ofNat 123

/-- Modelled from the spec: the closing-brace character of JSON object
syntax. -/
def rbraceChar : Char := Char.ofNat 125

/-- Modelled from the spec: whitespace skipping for the JSON argument
parser used by `decodeResponse`. -/
def skipWs : List Char → List Char
  | [] => []
  | c :: cs => if c = ' ' || c = chr 10 || c = chr 9 || c = chr 13 then skipWs cs else c :: cs

/-- Modelled from the spec: translation of a JSON string escape character. -/
def unescapeChar (c : Char) : Char :=
  if c = 'n' then chr 10 else if c = 't' then chr 9 else if c = 'r' then chr 13 else c

/-- Modelled from the spec: parse the body of a JSON string after the
opening quote, returning the decoded characters and the remainder after
the closing quote. -/
def parseStringBody : List Char → Option (List Char × List Char)
  | [] => Option.none
  | c :: cs =>
    if c = chr 34 then Option.some ([], cs)
    else if c = chr 92 then
      match cs with
      | [] => Option.none
      | e :: cs2 => (parseStringBody cs2).map (fun p => (unescapeChar e :: p.1, p.2))
    else (parseStringBody cs).map (fun p => (c :: p.1, p.2))

/-- Modelled from the spec: split a leading run of decimal digits from the
input. -/
def takeDigits : List Char → List Char × List Char
  | [] => ([], [])
  | c :: cs =>
    if c.isDigit then
      let p := takeDigits cs
      (c :: p.1, p.2)
    else ([], c :: cs)

/-- Modelled from the spec: the natural-number value of a digit run. -/
def digitsVal (ds : List Char) : Nat :=
  ds.foldl (fun n c => n * 10 + (c.toNat - 48)) 0

mutual

/-- Modelled from the spec (§4.1, §9): the JSON parser behind
`decodeResponse` — parses one structural value (object, array, string,
integer number, boolean or null) from the input, returning the value and
the unconsumed remainder, or failing. The first argument is recursion
fuel; `parseJson` supplies enough for any input. -/
def parseValue : Nat → List Char → Option (StructValue × List Char)
  | 0, _ => Option.none
  | Nat.succ fuel, cs =>
    match skipWs cs with
    | [] => Option.none
    | c :: rest =>
      if c = lbraceChar then
        match skipWs rest with
        | [] => Option.none
        | d :: rest2 =>
          if d = rbraceChar then Option.some (.obj .nil, rest2)
          else (parseObjBody fuel (d :: rest2)).map (fun p => (.obj p.1, p.2))
      else if c = chr 91 then
        match skipWs rest with
        | [] => Option.none
        | d :: rest2 =>
          if d = chr 93 then Option.some (.arr .nil, rest2)
          else (parseArrBody fuel (d :: rest2)).map (fun p => (.arr p.1, p.2))
      else if c = chr 34 then
        (parseStringBody rest).map (fun p => (.str (String.mk p.1), p.2))
      else if c = chr 45 then
        match rest with
        | [] => Option.none
        | d :: _ =>
          if d.isDigit then
            let p := takeDigits rest
            Option.some (.num (-(Int.ofNat (digitsVal p.1))), p.2)
          else Option.none
      else if c.isDigit then
        let p := takeDigits (c :: rest)
        Option.some (.num (Int.ofNat (digitsVal p.1)), p.2)
      else if c = 't' then
        match rest with
        | 'r' :: 'u' :: 'e' :: r => Option.some (.bool true, r)
        | _ => Option.none
      else if c = 'f' then
        match rest with
        | 'a' :: 'l' :: 's' :: 'e' :: r => Option.some (.bool false, r)
        | _ => Option.none
      else if c = 'n' then
        match rest with
        | 'u' :: 'l' :: 'l' :: r => Option.some (.null, r)
        | _ => Option.none
      else Option.none

/-- Modelled from the spec: parse the members of a nonempty JSON object,
positioned at the first character of a key (after the opening brace or a
separating comma, whitespace already skipped). -/
def parseObjBody : Nat → List Char → Option (ObjFields × List Char)
  | 0, _ => Option.none
  | Nat.succ fuel, cs =>
    match cs with
    | [] => Option.none
    | c :: rest =>
      if c = chr 34 then
        match parseStringBody rest with
        | Option.none => Option.none
        | Option.some (key, afterKey) =>
          match skipWs afterKey with
          | [] => Option.none
          | d :: afterColon =>
            if d = chr 58 then
              match parseValue fuel afterColon with
              | Option.none => Option.none
              | Option.some (v, afterVal) =>
                match skipWs afterVal with
                | [] => Option.none
                | e :: afterSep =>
                  if e = chr 44 then
                    (parseObjBody fuel (skipWs afterSep)).map
                      (fun p => (.cons (String.mk key) v p.1, p.2))
                  else if e = rbraceChar then
                    Option.some (.cons (String.mk key) v .nil, afterSep)
                  else Option.none
            else Option.none
      else Option.none

/-- Modelled from the spec: parse the elements of a nonempty JSON array,
positioned at the first character of an element. -/
def parseArrBody : Nat → List Char → Option (ValueList × List Char)
  | 0, _ => Option.none
  | Nat.succ fuel, cs =>
    match parseValue fuel cs with
    | Option.none => Option.none
    | Option.some (v, afterVal) =>
      match skipWs afterVal with
      | [] => Option.none
      | e :: afterSep =>
        if e = chr 44 then
          (parseArrBody fuel afterSep).map (fun p => (.cons v p.1, p.2))
        else if e = chr 93 then Option.some (.cons v .nil, afterSep)
        else Option.none

end

/-- Modelled from the spec (§4.1): parse a string-encoded JSON arguments
blob into a structural value; fails (returns none) when the string is not
valid JSON or has trailing garbage. -/
def parseJson (s : String) : Option StructValue :=
  match parseValue (2 * s.length + 2) s.toList with
  | Option.some (v, rest) => if skipWs rest = [] then Option.some v else Option.none
  | Option.none => Option.none

/-- Modelled from the spec: prepend an optional description field to a
wire-level JSON object field list (the field is omitted when absent). -/
def withDescription : Option String → ObjFields → ObjFields
  | Option.none, fs => fs
  | Option.some d, fs => .cons "description" (.str d) fs

/-- Modelled from the spec: a list of strings as a JSON array value list. -/
def stringsToValues : List String → ValueList
  | [] => .nil
  | x :: r => .cons (.str x) (stringsToValues r)

/-- Modelled from the spec: recover a list of strings from a JSON array
value list, failing on any non-string element. -/
def valuesToStrings : ValueList → Option (List String)
  | .nil => Option.some []
  | .cons (.str x) r => (valuesToStrings r).map (fun l => x :: l)
  | .cons _ _ => Option.none

mutual

/-- Modelled from the spec (§4.1): serialize a structural schema node into
the vendor's declared-parameter JSON form, structurally JSON-Schema
compatible across all sampled vendors. -/
def schemaToJson : SchemaNode → StructValue
  | .objectNode d props req =>
    .obj (withDescription d (.cons "type" (.str "object")
      (.cons "properties" (.obj (fieldsToJson props))
        (.cons "required" (.arr (stringsToValues req)) .nil))))
  | .arrayNode d item =>
    .obj (withDescription d (.cons "type" (.str "array")
      (.cons "items" (schemaToJson item) .nil)))
  | .stringNode d => .obj (withDescription d (.cons "type" (.str "string") .nil))
  | .numberNode d => .obj (withDescription d (.cons "type" (.str "number") .nil))
  | .booleanNode d => .obj (withDescription d (.cons "type" (.str "boolean") .nil))
  | .enumNode d vals =>
    .obj (withDescription d (.cons "enum" (.arr (stringsToValues vals)) .nil))

/-- Modelled from the spec: serialize the property list of an object
schema node. -/
def fieldsToJson : SchemaFields → ObjFields
  | .nil => .nil
  | .cons k n r => .cons k (schemaToJson n) (fieldsToJson r)

end

mutual

/-- Modelled from the spec (§8): the vendor-side decode of a declared
parameter schema, inverting `schemaToJson` — the fake vendor echo used to
state the round-trip property. -/
def jsonToSchema : StructValue → Option SchemaNode
  | .obj (.cons k1 v1 rest) =>
    if k1 = "description" then
      match v1, rest with
      | .str d, .cons k2 v2 rest2 => schemaBody (Option.some d) k2 v2 rest2
      | _, _ => Option.none
    else schemaBody Option.none k1 v1 rest
  | _ => Option.none

/-- Modelled from the spec: decode the body of a schema object after the
optional description field, given the first remaining key and value and
the rest of the fields. -/
def schemaBody : Option String → String → StructValue → ObjFields → Option SchemaNode
  | d, "type", .str "object",
      .cons "properties" (.obj pf) (.cons "required" (.arr req) .nil) =>
    match jsonToFields pf, valuesToStrings req with
    | Option.some sf, Option.some reqs => Option.some (.objectNode d sf reqs)
    | _, _ => Option.none
  | d, "type", .str "array", .cons "items" it .nil =>
    (jsonToSchema it).map (fun n => .arrayNode d n)
  | d, "type", .str "string", .nil => Option.some (.stringNode d)
  | d, "type", .str "number", .nil => Option.some (.numberNode d)
  | d, "type", .str "boolean", .nil => Option.some (.booleanNode d)
  | d, "enum", .arr vals, .nil => (valuesToStrings vals).map (fun l => .enumNode d l)
  | _, _, _, _ => Option.none

/-- Modelled from the spec: decode a serialized property list back into
schema fields. -/
def jsonToFields : ObjFields → Option SchemaFields
  | .nil => Option.some .nil
  | .cons k v r =>
    match jsonToSchema v, jsonToFields r with
    | Option.some n, Option.some r2 => Option.some (.cons k n r2)
    | _, _ => Option.none

end

/-- Modelled from the spec (§4.1 and the sampled wire shapes): one
declared tool in the vendor request fragment — the function wrapper object
carrying name, description and parameters. All sampled vendors share this
shape. -/
def encodeTool (v : VendorId) (t : ToolSpec) : StructValue :=
  .obj (.cons "type" (.str "function")
    (.cons "function" (.obj (.cons "name" (.str t.name)
      (.cons "description" (.str t.description)
        (.cons "parameters" (schemaToJson t.parameterSchema) .nil)))) .nil))

/-- Modelled from the spec (§8): the vendor-side decode of one declared
tool, inverting `encodeTool` — recovers name, description and parameter
schema. -/
def decodeVendorTool : StructValue → Option (String × String × SchemaNode)
  | .obj (.cons "type" (.str "function")
      (.cons "function" (.obj (.cons "name" (.str n)
        (.cons "description" (.str d)
          (.cons "parameters" p .nil)))) .nil)) =>
    (jsonToSchema p).map (fun sch => (n, d, sch))
  | _ => Option.none

/-- Modelled from the spec (§4.1): the structured forced-call object
naming one tool, as accepted by the sampled vendors. -/
def forcedChoiceJson (n : String) : StructValue :=
  .obj (.cons "type" (.str "function")
    (.cons "function" (.obj (.cons "name" (.str n) .nil)) .nil))

/-- Modelled from the spec (§4.1): the vendor request fragment produced by
`encodeRequest` — the declared tools and the optional tool-selection
field. -/
structure VendorToolRequestFragment : Type where
  tools : List StructValue
  toolChoice : Option StructValue
deriving DecidableEq

/-- Modelled from the spec (§4.1): `encodeRequest` — serializes the
offered tools and the tool-choice policy into the vendor request
fragment. `Forced(name)` requires `name` to appear in `tools`, else fails
with `UnknownTool`; `tools` may be empty only when the choice is `Auto`.
`Auto` is encoded by omitting the tool-selection field (as the sampled
call sites do); `None` as the enumerated string. Pure, no network I/O. -/
def encodeRequest (tools : List ToolSpec) (choice : ToolChoicePolicy)
    (v : VendorId) : Except ErrorKind VendorToolRequestFragment :=
  match choice with
  | .forced n =>
    if tools.any (fun t => t.name = n) then
      .ok { tools := tools.map (encodeTool v), toolChoice := Option.some (forcedChoiceJson n) }
    else .error (.unknownTool n)
  | .auto =>
    .ok { tools := tools.map (encodeTool v), toolChoice := Option.none }
  | .none =>
    if tools.isEmpty then .error .emptyTools
    else .ok { tools := tools.map (encodeTool v), toolChoice := Option.some (.str "none") }

mutual

/-- Modelled from the spec (§4.1): whether every node of a schema tree —
not just the root — carries a description. -/
def allNodesDescribed : SchemaNode → Bool
  | .objectNode d props _ => d.isSome && fieldsDescribed props
  | .arrayNode d item => d.isSome && allNodesDescribed item
  | .stringNode d => d.isSome
  | .numberNode d => d.isSome
  | .booleanNode d => d.isSome
  | .enumNode d _ => d.isSome

/-- Modelled from the spec: whether every node below a property list
carries a description. -/
def fieldsDescribed : SchemaFields → Bool
  | .nil => true
  | .cons _ n r => allNodesDescribed n && fieldsDescribed r

end

/-- Modelled from the spec (§4.1, §7): `validateSpec` — enforces the
vendor-specific mandatory-field rule: a vendor whose profile requires
per-field descriptions rejects a tool whose schema has any node lacking a
description with `MissingDescription`; every other vendor applies the
looser description-optional rule. Pure, raised before any network call. -/
def validateSpec (t : ToolSpec) (v : VendorId) : Except ErrorKind Unit :=
  if (vendorProfile v).requiresFieldDescriptions && !allNodesDescribed t.parameterSchema
  then .error .missingDescription
  else .ok ()

/-- Modelled from the spec (§4.1): the synthesized call id for a vendor
call object that carries no id — the vendor wire name, a colon, and the
response-local index. -/
def synthesizeId (v : VendorId) (i : Nat) : String :=
  (vendorProfile v).wireName ++ ":" ++ toString i

/-- Modelled from the spec (§4.1): decode the vendor call objects starting
at response-local index `i`. The first call object whose arguments string
fails to parse as JSON aborts the whole decode with `MalformedArguments`
carrying its index and raw string; otherwise each call object yields one
invocation in input order, copying a supplied id and synthesizing one
otherwise. -/
def decodeFrom (v : VendorId) (i : Nat) : List RawToolCall → Except ErrorKind (List ToolInvocation)
  | [] => .ok []
  | c :: rest =>
    match parseJson c.argumentsJson with
    | Option.none => .error (.malformedArguments i c.argumentsJson)
    | Option.some args =>
      match decodeFrom v (i + 1) rest with
      | .error e => .error e
      | .ok tail =>
        .ok ({ id := c.id.getD (synthesizeId v i), toolName := c.name, arguments := args } :: tail)

/-- Modelled from the spec (§4.1): `decodeResponse` — normalizes a raw
vendor tool-call fragment (an ordered sequence of vendor call objects)
into canonical invocations, failing as a whole on the first malformed
arguments string and never returning a partial result. Pure and
stateless. -/
def decodeResponse (raw : List RawToolCall) (v : VendorId) : Except ErrorKind (List ToolInvocation) :=
  decodeFrom v 0 raw

/-- Modelled from the spec (§8): read the declared function name out of one
encoded tool object of a request fragment. -/
def toolFunctionName : StructValue → Option String
  | .obj (.cons "type" _ (.cons "function" (.obj (.cons "name" (.str n) _)) _)) =>
    Option.some n
  | _ => Option.none

/-- Default vendor call object used only as the `List.getD` fallback in
theorem statements; indices are always in bounds there. -/
def defaultCall : RawToolCall :=
  { id := Option.none, name := "", argumentsJson := "" }

/-- Default invocation used only as the `List.getD` fallback in theorem
statements; indices are always in bounds there. -/
def defaultInv : ToolInvocation :=
  { id := "", toolName := "", arguments := .null }

/-- The calculator tool of the sampled function-calling guide: a single
tool named calculator with an operation enum and two numbers, all three
required. -/
def calculatorSpec : ToolSpec :=
  { name := "calculator"
    description := "A simple calculator tool"
    parameterSchema :=
      .objectNode Option.none
        (.cons "operation" (.enumNode Option.none ["add", "subtract", "multiply", "divide"])
          (.cons "number1" (.numberNode Option.none)
            (.cons "number2" (.numberNode Option.none) .nil)))
        ["operation", "number1", "number2"] }

/-- The string-encoded JSON arguments blob of the sampled calculator tool
call. -/
def calculatorArgsJson : String :=
  "\x7b\"operation\":\"multiply\",\"number1\":3,\"number2\":12\x7d"

/-- The parsed structural value of `calculatorArgsJson`. -/
def calculatorArgsValue : StructValue :=
  .obj (.cons "operation" (.str "multiply")
    (.cons "number1" (.num 3) (.cons "number2" (.num 12) .nil)))

/-- A sampled vendor call object with a supplied call id. -/
def sampleCall : RawToolCall :=
  { id := Option.some "call_1", name := "calculator", argumentsJson := calculatorArgsJson }

/-- A vendor call object whose arguments string is not valid JSON. -/
def badCall : RawToolCall :=
  { id := Option.some "call_2", name := "calculator", argumentsJson := "\x7bnot json" }

/-- The sampled Mistral response call object: the vendor returned the
literal id string null (not an absent field), with whitespace inside the
arguments blob as sampled. -/
def mistralNullIdCall : RawToolCall :=
  { id := Option.some "null"
    name := "calculator"
    argumentsJson := "\x7b\"operation\": \"multiply\", \"number1\": 3, \"number2\": 12\x7d" }

/-- A tool whose root schema node is described but whose nested field
lacks a description. -/
def undescribedFieldSpec : ToolSpec :=
  { name := "calculator"
    description := "A simple calculator tool"
    parameterSchema :=
      .objectNode (Option.some "calculator arguments")
        (.cons "number1" (.numberNode Option.none) .nil) ["number1"] }

/-- A tool named weather, used to exercise the unknown-tool path. -/
def weatherSpec : ToolSpec :=
  { name := "weather"
    description := "Look up the weather"
    parameterSchema := .objectNode Option.none .nil [] }

/-- Decidable equality for adapter results, used to evaluate the model on
concrete inputs. -/
instance {e a : Type} [DecidableEq e] [DecidableEq a] : DecidableEq (Except e a) := fun x y =>
  match x, y with
  | .ok b, .ok c =>
    if h : b = c then isTrue (by rw [h]) else isFalse (by intro hc; cases hc; exact h rfl)
  | .error b, .error c =>
    if h : b = c then isTrue (by rw [h]) else isFalse (by intro hc; cases hc; exact h rfl)
  | .ok _, .error _ => isFalse (by intro hc; cases hc)
  | .error _, .ok _ => isFalse (by intro hc; cases hc)

/-- A sampled vendor call object that carries no call id. -/
def noIdCall : RawToolCall :=
  { id := Option.none, name := "weather", argumentsJson := "\x7b\"city\":\"Paris\"\x7d" }

/-- A two-call response fragment: a call with a supplied id followed by a
call without one. -/
def demoRaw : List RawToolCall := [sampleCall, noIdCall]

/-- The canonical invocations decoded from `demoRaw` for the openai
vendor. -/
def demoInvs : List ToolInvocation :=
  [⟨"call_1", "calculator", calculatorArgsValue⟩,
   ⟨"openai:1", "weather", .obj (.cons "city" (.str "Paris") .nil)⟩]

/-- The request fragment produced for the sampled calculator tool under
the Auto policy. -/
def calculatorFragment : VendorToolRequestFragment :=
  { tools := [encodeTool VendorId.openai calculatorSpec], toolChoice := Option.none }

end ToolCallAdapter





namespace ToolCallAdapter

/-- Decoding a serialized string list recovers the original list. -/
theorem valuesToStrings_stringsToValues (l : List String) :
    valuesToStrings (stringsToValues l) = Option.some l := by
  induction l with
  | nil => rfl
  | cons x r ih => simp [stringsToValues, valuesToStrings, ih]

mutual

/-- The vendor-side schema decode inverts `schemaToJson` on every schema
node. -/
theorem jsonToSchema_schemaToJson (s : SchemaNode) :
    jsonToSchema (schemaToJson s) = Option.some s := by
  cases s with
  | objectNode d props req =>
    cases d with
    | none =>
      simp [schemaToJson, withDescription, jsonToSchema, schemaBody,
        jsonToFields_fieldsToJson props, valuesToStrings_stringsToValues]
    | some dd =>
      simp [schemaToJson, withDescription, jsonToSchema, schemaBody,
        jsonToFields_fieldsToJson props, valuesToStrings_stringsToValues]
  | arrayNode d item =>
    cases d with
    | none =>
      simp [schemaToJson, withDescription, jsonToSchema, schemaBody,
        jsonToSchema_schemaToJson item]
    | some dd =>
      simp [schemaToJson, withDescription, jsonToSchema, schemaBody,
        jsonToSchema_schemaToJson item]
  | stringNode d =>
    cases d <;> simp [schemaToJson, withDescription, jsonToSchema, schemaBody]
  | numberNode d =>
    cases d <;> simp [schemaToJson, withDescription, jsonToSchema, schemaBody]
  | booleanNode d =>
    cases d <;> simp [schemaToJson, withDescription, jsonToSchema, schemaBody]
  | enumNode d vals =>
    cases d <;> simp [schemaToJson, withDescription, jsonToSchema, schemaBody,
      valuesToStrings_stringsToValues]

/-- The vendor-side property-list decode inverts `fieldsToJson`. -/
theorem jsonToFields_fieldsToJson (fs : SchemaFields) :
    jsonToFields (fieldsToJson fs) = Option.some fs := by
  cases fs with
  | nil => rfl
  | cons k n r =>
    simp [fieldsToJson, jsonToFields, jsonToSchema_schemaToJson n,
      jsonToFields_fieldsToJson r]

end

/-- The vendor-side tool decode recovers the name, description and
parameter schema of every encoded tool. -/
theorem decodeVendorTool_encodeTool (v : VendorId) (t : ToolSpec) :
    decodeVendorTool (encodeTool v t) =
      Option.some (t.name, t.description, t.parameterSchema) := by
  simp [encodeTool, decodeVendorTool, jsonToSchema_schemaToJson]

/-- At whatever starting index, the first call object whose arguments
string fails to parse aborts `decodeFrom` with its absolute index and raw
string. -/
theorem decodeFrom_first_bad (v : VendorId) (raw : List RawToolCall) :
    ∀ (k i : Nat), i < raw.length →
    parseJson (raw.getD i defaultCall).argumentsJson = Option.none →
    (∀ j, j < i → (parseJson (raw.getD j defaultCall).argumentsJson).isSome = true) →
    decodeFrom v k raw = .error (.malformedArguments (k + i) (raw.getD i defaultCall).argumentsJson) := by
  induction raw with
  | nil => intro k i hi; simp at hi
  | cons c rest ih =>
    intro k i hi hbad hgood
    cases i with
    | zero =>
      simp only [List.getD_cons_zero] at hbad ⊢
      simp [decodeFrom, hbad]
    | succ i2 =>
      have hc : (parseJson c.argumentsJson).isSome = true := by
        have := hgood 0 (Nat.succ_pos i2)
        simpa using this
      obtain ⟨args, hargs⟩ := Option.isSome_iff_exists.mp hc
      have hrest : decodeFrom v (k + 1) rest =
          .error (.malformedArguments ((k + 1) + i2) (rest.getD i2 defaultCall).argumentsJson) := by
        apply ih (k + 1) i2
        · simpa using hi
        · simpa using hbad
        · intro j hj
          have := hgood (j + 1) (Nat.succ_lt_succ hj)
          simpa using this
      have harith : (k + 1) + i2 = k + (i2 + 1) := by omega
      simp only [List.getD_cons_succ]
      simp [decodeFrom, hargs, hrest, harith]

/-- A successful `decodeFrom` yields one invocation per call object, in
input order, with the parsed arguments and the copied or synthesized id. -/
theorem decodeFrom_ok_spec (v : VendorId) (raw : List RawToolCall) :
    ∀ (k : Nat) (l : List ToolInvocation), decodeFrom v k raw = .ok l →
    l.length = raw.length ∧
    ∀ i, i < raw.length →
      (l.getD i defaultInv).toolName = (raw.getD i defaultCall).name ∧
      (l.getD i defaultInv).id =
        ((raw.getD i defaultCall).id).getD (synthesizeId v (k + i)) ∧
      Option.some (l.getD i defaultInv).arguments =
        parseJson (raw.getD i defaultCall).argumentsJson := by
  induction raw with
  | nil =>
    intro k l h
    simp [decodeFrom] at h
    subst h
    exact ⟨rfl, fun i hi => absurd hi (by simp)⟩
  | cons c rest ih =>
    intro k l h
    simp only [decodeFrom] at h
    cases hp : parseJson c.argumentsJson with
    | none => rw [hp] at h; exact absurd h (by simp)
    | some args =>
      rw [hp] at h
      cases hr : decodeFrom v (k + 1) rest with
      | error e => rw [hr] at h; exact absurd h (by simp)
      | ok tail =>
        rw [hr] at h
        simp only [Except.ok.injEq] at h
        subst h
        obtain ⟨hlen, hspec⟩ := ih (k + 1) tail hr
        refine ⟨by simp [hlen], ?_⟩
        intro i hi
        cases i with
        | zero => simp [hp]
        | succ i2 =>
          have hi2 : i2 < rest.length := by simpa using hi
          have := hspec i2 hi2
          have harith : k + 1 + i2 = k + (i2 + 1) := by omega
          simpa [harith] using this

end ToolCallAdapter

namespace ToolCallAdapter

/-- Claim C1: for every tool set and every name absent from it,
`encodeRequest` under the Forced policy fails with `UnknownTool` and
returns no request fragment, for every supported vendor. -/
theorem encodeRequest_forced_unknown (tools : List ToolSpec) (n : String) (v : VendorId)
    (h : ∀ t ∈ tools, t.name ≠ n) :
    encodeRequest tools (ToolChoicePolicy.forced n) v = .error (.unknownTool n) := by
  have hany : tools.any (fun t => t.name = n) = false := by
    rw [List.any_eq_false]
    intro t ht
    simpa using h t ht
  simp [encodeRequest, hany]

/-- Witness for C1: forcing the absent tool name calculator against a set
offering only the weather tool fails with `UnknownTool`. -/
theorem encodeRequest_forced_unknown_witness :
    (∀ t ∈ [weatherSpec], t.name ≠ "calculator") ∧
    encodeRequest [weatherSpec] (ToolChoicePolicy.forced "calculator") VendorId.openai =
      .error (.unknownTool "calculator") :=
  ⟨by decide, encodeRequest_forced_unknown [weatherSpec] "calculator" VendorId.openai (by decide)⟩

/-- Claim C2: if the call object at index `i` is the first whose arguments
string fails to parse as JSON, `decodeResponse` fails as a whole with
`MalformedArguments` carrying index `i` and the raw string, and returns
zero invocations. -/
theorem decodeResponse_malformed_first (raw : List RawToolCall) (v : VendorId) (i : Nat)
    (hi : i < raw.length)
    (hbad : parseJson (raw.getD i defaultCall).argumentsJson = Option.none)
    (hgood : ∀ j, j < i → (parseJson (raw.getD j defaultCall).argumentsJson).isSome = true) :
    decodeResponse raw v = .error (.malformedArguments i (raw.getD i defaultCall).argumentsJson) := by
  have := decodeFrom_first_bad v raw 0 i hi hbad hgood
  simpa [decodeResponse] using this

/-- Witness for C2: a fragment whose second call object has the arguments
string of `badCall` (an unterminated brace) fails referencing index 1. -/
theorem decodeResponse_malformed_first_witness :
    (1 < [sampleCall, badCall].length) ∧
    parseJson ([sampleCall, badCall].getD 1 defaultCall).argumentsJson = Option.none ∧
    (∀ j, j < 1 → (parseJson ([sampleCall, badCall].getD j defaultCall).argumentsJson).isSome = true) ∧
    decodeResponse [sampleCall, badCall] VendorId.openai =
      .error (.malformedArguments 1 ([sampleCall, badCall].getD 1 defaultCall).argumentsJson) :=
  ⟨by decide, by decide,
    by
      intro j hj
      have hj0 : j = 0 := Nat.lt_one_iff.mp hj
      subst hj0
      decide,
    decodeResponse_malformed_first [sampleCall, badCall] VendorId.openai 1 (by decide) (by decide)
      (by
        intro j hj
        have hj0 : j = 0 := Nat.lt_one_iff.mp hj
        subst hj0
        decide)⟩

/-- Claim C3: a successful `decodeResponse` returns exactly as many
invocations as there are call objects, and the invocation at each index
names the tool of the call object at the same index — output order equals
input order. -/
theorem decodeResponse_order_preserved (raw : List RawToolCall) (v : VendorId)
    (l : List ToolInvocation) (h : decodeResponse raw v = .ok l) :
    l.length = raw.length ∧
    ∀ i, i < raw.length → (l.getD i defaultInv).toolName = (raw.getD i defaultCall).name := by
  obtain ⟨hlen, hspec⟩ := decodeFrom_ok_spec v raw 0 l h
  exact ⟨hlen, fun i hi => (hspec i hi).1⟩

/-- Witness for C3: the two-call fragment `demoRaw` decodes to two
invocations in input order. -/
theorem decodeResponse_order_preserved_witness :
    (decodeResponse demoRaw VendorId.openai = .ok demoInvs) ∧
    (demoInvs.length = demoRaw.length ∧
      ∀ i, i < demoRaw.length →
        (demoInvs.getD i defaultInv).toolName = (demoRaw.getD i defaultCall).name) :=
  ⟨by decide, decodeResponse_order_preserved demoRaw VendorId.openai demoInvs (by decide)⟩

/-- Claim C5: on a successful decode, a call object without an id yields
the synthesized id vendor-wire-name colon index (so position 0 gets index
0), deterministically, and a supplied id is copied unchanged. -/
theorem decodeResponse_id_handling (raw : List RawToolCall) (v : VendorId)
    (l : List ToolInvocation) (h : decodeResponse raw v = .ok l) :
    ∀ i, i < raw.length →
      ((raw.getD i defaultCall).id = Option.none →
        (l.getD i defaultInv).id = synthesizeId v i) ∧
      (∀ s, (raw.getD i defaultCall).id = Option.some s → (l.getD i defaultInv).id = s) := by
  obtain ⟨hlen, hspec⟩ := decodeFrom_ok_spec v raw 0 l h
  intro i hi
  have hid := (hspec i hi).2.1
  constructor
  · intro hnone
    rw [hnone] at hid
    simpa using hid
  · intro s hs
    rw [hs] at hid
    simpa using hid

/-- Witness for C5: in `demoRaw` the first call's supplied id call_1 is
copied and the second, id-less call gets the synthesized id openai:1. -/
theorem decodeResponse_id_handling_witness :
    (decodeResponse demoRaw VendorId.openai = .ok demoInvs) ∧
    ∀ i, i < demoRaw.length →
      ((demoRaw.getD i defaultCall).id = Option.none →
        (demoInvs.getD i defaultInv).id = synthesizeId VendorId.openai i) ∧
      (∀ s, (demoRaw.getD i defaultCall).id = Option.some s →
        (demoInvs.getD i defaultInv).id = s) :=
  ⟨by decide, decodeResponse_id_handling demoRaw VendorId.openai demoInvs (by decide)⟩

/-- Claim C6: `decodeResponse` is deterministic and idempotent — two
decodes of the identical raw fragment yield structurally equal invocation
sequences (including equal ids); immediate because the adapter is a pure,
stateless function. -/
theorem decodeResponse_deterministic (raw : List RawToolCall) (v : VendorId)
    (l1 l2 : List ToolInvocation) (h1 : decodeResponse raw v = .ok l1)
    (h2 : decodeResponse raw v = .ok l2) : l1 = l2 := by
  rw [h1] at h2
  exact Except.ok.inj h2

/-- Witness for C6: two decodes of `demoRaw` both yield `demoInvs`. -/
theorem decodeResponse_deterministic_witness :
    (decodeResponse demoRaw VendorId.openai = .ok demoInvs) ∧ demoInvs = demoInvs :=
  ⟨by decide,
    decodeResponse_deterministic demoRaw VendorId.openai demoInvs demoInvs (by decide) (by decide)⟩

/-- Claim C4: decoding the fragment produced by any successful
`encodeRequest` through the vendor-side tool decode reproduces every
tool's name, description and parameter schema exactly — in particular no
description is ever dropped. -/
theorem encodeRequest_decode_roundTrip (tools : List ToolSpec) (choice : ToolChoicePolicy)
    (v : VendorId) (frag : VendorToolRequestFragment)
    (h : encodeRequest tools choice v = .ok frag) :
    frag.tools.map decodeVendorTool =
      tools.map (fun t => Option.some (t.name, t.description, t.parameterSchema)) := by
  have htools : frag.tools = tools.map (encodeTool v) := by
    cases choice with
    | auto =>
      simp only [encodeRequest] at h
      cases h
      rfl
    | forced n =>
      simp only [encodeRequest] at h
      split at h
      · cases h; rfl
      · cases h
    | none =>
      simp only [encodeRequest] at h
      split at h
      · cases h
      · cases h; rfl
  rw [htools, List.map_map]
  simp [Function.comp_def, decodeVendorTool_encodeTool]

/-- Witness for C4: the calculator tool round-trips through the openai
fragment. -/
theorem encodeRequest_decode_roundTrip_witness :
    (encodeRequest [calculatorSpec] ToolChoicePolicy.auto VendorId.openai =
      .ok calculatorFragment) ∧
    calculatorFragment.tools.map decodeVendorTool =
      [calculatorSpec].map (fun t => Option.some (t.name, t.description, t.parameterSchema)) :=
  ⟨rfl, encodeRequest_decode_roundTrip [calculatorSpec] ToolChoicePolicy.auto VendorId.openai
    calculatorFragment rfl⟩

/-- Claim C7: Mistral, the vendor requiring per-field descriptions,
rejects at `validateSpec` time any tool whose schema has a node — not just
the root — lacking a description, with `MissingDescription`; every other
supported vendor accepts the same tool. -/
theorem validateSpec_perField_descriptions (t : ToolSpec) (v : VendorId)
    (h : allNodesDescribed t.parameterSchema = false) :
    validateSpec t VendorId.mistral = .error .missingDescription ∧
    (v ≠ VendorId.mistral → validateSpec t v = .ok ()) := by
  constructor
  · simp [validateSpec, vendorProfile, h]
  · intro hv
    cases v with
    | mistral => exact absurd rfl hv
    | openai => simp [validateSpec, vendorProfile]
    | anthropic => simp [validateSpec, vendorProfile]
    | googleVertexAI => simp [validateSpec, vendorProfile]
    | togetherai => simp [validateSpec, vendorProfile]

/-- Witness for C7: a tool whose root node is described but whose nested
number field is not fails validation for Mistral and passes for OpenAI. -/
theorem validateSpec_perField_descriptions_witness :
    (allNodesDescribed undescribedFieldSpec.parameterSchema = false) ∧
    validateSpec undescribedFieldSpec VendorId.mistral = .error .missingDescription ∧
    (VendorId.openai ≠ VendorId.mistral →
      validateSpec undescribedFieldSpec VendorId.openai = .ok ()) :=
  ⟨by decide, validateSpec_perField_descriptions undescribedFieldSpec VendorId.openai (by decide)⟩

/-- Claim C8: encoding the sampled calculator tool under the Auto policy
for OpenAI yields a fragment whose first declared function is named
calculator and whose tool-selection field is omitted. -/
theorem encodeRequest_calculator_auto :
    ∃ frag, encodeRequest [calculatorSpec] ToolChoicePolicy.auto VendorId.openai =
        Except.ok frag ∧
      toolFunctionName (frag.tools.getD 0 StructValue.null) = Option.some "calculator" ∧
      frag.toolChoice = Option.none := by
  refine ⟨calculatorFragment, rfl, ?_, rfl⟩
  decide

/-- Claim C9: with an empty tool set, `encodeRequest` errors under the
None and Forced policies for every vendor and every forced name, and
succeeds under Auto. -/
theorem encodeRequest_empty_tools (v : VendorId) (n : String) :
    (∃ e, encodeRequest [] ToolChoicePolicy.none v = .error e) ∧
    (∃ e, encodeRequest [] (ToolChoicePolicy.forced n) v = .error e) ∧
    ∃ frag, encodeRequest [] ToolChoicePolicy.auto v = .ok frag :=
  ⟨⟨.emptyTools, rfl⟩, ⟨.unknownTool n, rfl⟩, ⟨_, rfl⟩⟩

/-- Claim C10: the sampled Mistral call object carrying the literal id
string null is treated as a supplied id and copied verbatim — the decoded
invocation's id is null, not a synthesized mistral:0. -/
theorem decodeResponse_null_id_copied :
    decodeResponse [mistralNullIdCall] VendorId.mistral =
      .ok [⟨"null", "calculator", calculatorArgsValue⟩] := by
  decide

end ToolCallAdapter
